import Mathlib

/-
Verification development for the AI music studio repository.

The file shallowly embeds the two core subsystems:
  * the preference-learning engine of `src/hooks/useLearningSystem.ts`
    (keyword dictionary, weight table, feedback processing, persistence
    migration), and
  * the binary MIDI serializer (`createTrackChunk` / `createMidiBlob`)
    together with the validation pass of
    `src/services/midiValidationService.ts`.

JavaScript numbers are modelled by exact rationals (`ℚ`).  Every concrete
constant exercised by a theorem below is exactly representable as an IEEE
double and its double computations are exact or absorbed by integer
rounding; theorems quantifying over arbitrary rationals assert only facts
that are insensitive to double rounding (range bounds, saturation of the
clamp at 1.0, structural byte layout), so the rational model agrees with
the source wherever a theorem speaks.  JavaScript
objects (string-keyed records) are modelled by association lists in
insertion order, matching JS enumeration order for non-integer keys.
-/

/-- JavaScript `Math.round`: rounds half toward positive infinity. -/
def jsRound (q : ℚ) : ℤ := ⌊q + 1/2⌋

/-- ASCII lower-casing of one character; `String.prototype.toLowerCase`
agrees with this on the ASCII range, which covers every dictionary keyword
and every text used in the theorems below. -/
def lowerChar (c : Char) : Char :=
  if 'A' ≤ c ∧ c ≤ 'Z' then Char.ofNat (c.toNat + 32) else c

/-- Lower-cased character list of a string (`description.toLowerCase()`). -/
def lowerStr (s : String) : List Char := s.toList.map lowerChar

/-- JavaScript regex word-character class `\w` = `[A-Za-z0-9_]`. -/
def isWordChar (c : Char) : Bool :=
  ('a' ≤ c && c ≤ 'z') || ('A' ≤ c && c ≤ 'Z') || ('0' ≤ c && c ≤ '9') || c = '_'

/-- JavaScript regex whitespace class `\s`, restricted to its ASCII members;
the Unicode members never occur in the keyword dictionary nor in any input
considered here. -/
def isSpaceChar (c : Char) : Bool :=
  c = ' ' || c = '\t' || c = '\n' || c = '\r' || c = '\x0b' || c = '\x0c'

/-- Word-ness of an optional character; a string edge (`none`) counts as
non-word, exactly as in the ECMAScript `\b` semantics. -/
def isWordOpt : Option Char → Bool
  | none => false
  | some c => isWordChar c

/-- ECMAScript word-boundary assertion `\b` between two adjacent positions. -/
def jsBoundary (a b : Option Char) : Bool := isWordOpt a != isWordOpt b

/-- Consume the compiled keyword pattern against a text suffix.  The engine
builds its regex as `keyword.replace(/ /g, '\\s+')`, so a space in the
keyword stands for `\s+` (one or more whitespace characters) and every other
character is literal.  Greedy whitespace consumption is equivalent to the
backtracking semantics because in every dictionary keyword a space is
followed by a non-space character.  Returns the unconsumed remainder. -/
def kwConsume : List Char → List Char → Option (List Char)
  | [], rest => some rest
  | ' ' :: kw, rest =>
    if (rest.takeWhile isSpaceChar).isEmpty then none
    else kwConsume kw (rest.dropWhile isSpaceChar)
  | _ :: _, [] => none
  | c :: kw, r :: rest => if r = c then kwConsume kw rest else none

/-- Match of the anchored pattern `\b<keyword>\b` at one fixed position,
`prev` being the character immediately before that position.  The leading
`\b` compares `prev` with the first pattern character (equal to the first
consumed text character whenever consumption succeeds), the trailing `\b`
compares the last pattern character (same word-ness as the last consumed
character) with the first unconsumed one. -/
def kwMatchHere (kw : List Char) (prev : Option Char) (t : List Char) : Bool :=
  jsBoundary prev kw.head? &&
    match kwConsume kw t with
    | none => false
    | some rest => jsBoundary kw.getLast? rest.head?

/-- Search for a match of `\b<keyword>\b` at any position of the text, as
`RegExp.prototype.test` does. -/
def kwSearch (kw : List Char) : Option Char → List Char → Bool
  | prev, t =>
    kwMatchHere kw prev t ||
      match t with
      | [] => false
      | c :: rest => kwSearch kw (some c) rest

/-- The engine's keyword test:
`new RegExp('\\b' + keyword.replace(/ /g, '\\s+') + '\\b').test(description.toLowerCase())`. -/
def matchesText (kw text : String) : Bool := kwSearch kw.toList none (lowerStr text)

/-- The ten musical dimensions (`MusicalDimension` enum of `src/types.ts`),
in declaration order. -/
inductive MusicalDimension
  | style | mood | key | instrument | humanization | pattern
  | harmonic_complexity | melodic_development | dynamic_expression | voice_leading
deriving DecidableEq, Repr

/-- Feedback vocabulary (`FeedbackAction` enum of `src/types.ts`). -/
inductive FeedbackAction
  | like | dislike | regenerate | download
deriving DecidableEq, Repr

/-- A dimension's weight table `{ [keyword]: weight }`, as an association
list in JS insertion order. -/
abbrev PreferenceWeights : Type := List (String × ℚ)

/-- Property read `weights[keyword]` on a JS object. -/
def lookupW : PreferenceWeights → String → Option ℚ
  | [], _ => none
  | (k, v) :: rest, key => if k = key then some v else lookupW rest key

/-- The engine's default read `weights[keyword] || 0.1`: `undefined` and the
(unreachable, but faithfully modelled) stored value `0` are both falsy. -/
def weightOr (ws : PreferenceWeights) (key : String) : ℚ :=
  match lookupW ws key with
  | none => 0.1
  | some v => if v = 0 then 0.1 else v

/-- Property write `weights[keyword] = v` on a JS object: an existing key is
updated in place (keeping its position), a new key is appended. -/
def setW : PreferenceWeights → String → ℚ → PreferenceWeights
  | [], key, v => [(key, v)]
  | (k, w) :: rest, key, v =>
    if k = key then (k, v) :: rest else (k, w) :: setW rest key v

/-- The full preference table, one weight map per dimension
(`LearnedPreferences` of `src/types.ts`). -/
structure LearnedPreferences where
  style : PreferenceWeights
  mood : PreferenceWeights
  key : PreferenceWeights
  instrument : PreferenceWeights
  humanization : PreferenceWeights
  pattern : PreferenceWeights
  harmonic_complexity : PreferenceWeights
  melodic_development : PreferenceWeights
  dynamic_expression : PreferenceWeights
  voice_leading : PreferenceWeights
deriving DecidableEq

/-- Read `preferences[dimension]`. -/
def prefsGet (p : LearnedPreferences) : MusicalDimension → PreferenceWeights
  | .style => p.style
  | .mood => p.mood
  | .key => p.key
  | .instrument => p.instrument
  | .humanization => p.humanization
  | .pattern => p.pattern
  | .harmonic_complexity => p.harmonic_complexity
  | .melodic_development => p.melodic_development
  | .dynamic_expression => p.dynamic_expression
  | .voice_leading => p.voice_leading

/-- Write `preferences[dimension] = ws`. -/
def prefsSet (p : LearnedPreferences) (d : MusicalDimension) (ws : PreferenceWeights) :
    LearnedPreferences :=
  match d with
  | .style => { p with style := ws }
  | .mood => { p with mood := ws }
  | .key => { p with key := ws }
  | .instrument => { p with instrument := ws }
  | .humanization => { p with humanization := ws }
  | .pattern => { p with pattern := ws }
  | .harmonic_complexity => { p with harmonic_complexity := ws }
  | .melodic_development => { p with melodic_development := ws }
  | .dynamic_expression => { p with dynamic_expression := ws }
  | .voice_leading => { p with voice_leading := ws }

/-- The static keyword dictionary `KEYWORD_MAP` of `useLearningSystem.ts`. -/
def KEYWORD_MAP : MusicalDimension → List String
  | .style =>
    ["jazz", "classical", "rock", "blues", "electronic", "folk", "pop",
     "ambient", "hip-hop", "country", "funk", "soul", "reggae"]
  | .mood =>
    ["happy", "sad", "melancholic", "energetic", "calm", "dramatic",
     "mysterious", "romantic", "aggressive", "peaceful", "upbeat", "funky",
     "dark", "light"]
  | .key =>
    ["c major", "g major", "d major", "a major", "e major", "f major",
     "c minor", "g minor", "d minor", "a minor", "e minor", "f minor"]
  | .instrument =>
    ["piano", "guitar", "drums", "bass", "violin", "saxophone", "trumpet",
     "flute", "synthesizer", "organ", "synth", "cello", "clarinet",
     "trombone", "marimba", "harp", "electric guitar", "acoustic guitar",
     "rhodes", "pads", "lead"]
  | .humanization =>
    ["swing", "groove", "humanized", "natural feel", "velocity variance",
     "timing imperfection", "dynamic range", "rubato", "expressive",
     "phrasing", "articulation", "laid-back", "behind the beat",
     "unquantized", "tight", "quantized", "rushed"]
  | .pattern =>
    ["complex rhythm", "simple rhythm", "melodic", "arpeggiated",
     "dense texture", "sparse texture", "repetitive", "syncopated",
     "call and response", "chord", "progression", "four-on-the-floor",
     "off-beats", "bassline riff"]
  | .harmonic_complexity =>
    ["simple", "complex", "sophisticated", "extended chords",
     "altered chords", "secondary dominants", "modal interchange",
     "chromatic", "diatonic", "functional harmony", "voice leading",
     "counterpoint"]
  | .melodic_development =>
    ["motivic", "thematic", "development", "variation", "transformation",
     "sequence", "imitation", "fugue", "canon", "improvisational", "linear",
     "contour", "shape"]
  | .dynamic_expression =>
    ["expressive", "dynamic", "phrasing", "crescendo", "diminuendo",
     "accent", "emphasis", "articulation", "legato", "staccato", "tenuto",
     "fermata"]
  | .voice_leading =>
    ["smooth", "contrary motion", "oblique motion", "parallel motion",
     "voice leading", "counterpoint", "polyphony", "homophony", "chordal",
     "linear"]

/-- The dimensions in the key insertion order of the `KEYWORD_MAP` record
literal, which is the order `Object.entries` enumerates them. -/
def DIMENSIONS : List MusicalDimension :=
  [.style, .mood, .key, .instrument, .humanization, .pattern,
   .harmonic_complexity, .melodic_development, .dynamic_expression,
   .voice_leading]

/-- `Object.entries(KEYWORD_MAP)` in enumeration order. -/
def KEYWORD_MAP_ENTRIES : List (MusicalDimension × List String) :=
  DIMENSIONS.map fun d => (d, KEYWORD_MAP d)

/-- The all-empty preference table `INITIAL_PREFERENCES`. -/
def INITIAL_PREFERENCES : LearnedPreferences :=
  { style := [], mood := [], key := [], instrument := [], humanization := []
    pattern := [], harmonic_complexity := [], melodic_development := []
    dynamic_expression := [], voice_leading := [] }

/-- In-memory engine state (`LearningSystemState` of `src/types.ts`).  The
sample counter is a non-negative integer in every reachable and every
persisted state, so it is carried as `ℕ`. -/
structure LearningSystemState where
  isEnabled : Bool
  preferences : LearnedPreferences
  sampleCount : ℕ
  confidence : ℚ
deriving DecidableEq

/-- Learning-rate constant of `useLearningSystem.ts`. -/
def LEARNING_RATE : ℚ := 0.1

/-- Confidence saturation constant of `useLearningSystem.ts`. -/
def MAX_CONFIDENCE_SAMPLES : ℚ := 50

/-- The per-action weight delta of `updatePreferences` (and the identical
`delta` chain of `handleBulkFeedback`): like/download add the learning rate,
dislike subtracts it, regenerate subtracts half of it. -/
def actionDelta : FeedbackAction → ℚ
  | .like => LEARNING_RATE
  | .download => LEARNING_RATE
  | .dislike => -LEARNING_RATE
  | .regenerate => -(LEARNING_RATE / 2)

/-- The clamp `Math.max(0.1, Math.min(1.0, w))`. -/
def clampW (x : ℚ) : ℚ := max 0.1 (min 1 x)

/-- One weight update (`updatePreferences` of `useLearningSystem.ts`),
expressed as a pure state transformer: the functional `setState` updates it
queues compose sequentially in call order. -/
def updatePreferences (dimension : MusicalDimension) (keyword : String)
    (action : FeedbackAction) (s : LearningSystemState) : LearningSystemState :=
  let weights := prefsGet s.preferences dimension
  let newWeight := weightOr weights keyword + actionDelta action
  let n := s.sampleCount + 1
  { s with
    preferences := prefsSet s.preferences dimension (setW weights keyword (clampW newWeight))
    sampleCount := n
    confidence := min 100 ((n : ℚ) / MAX_CONFIDENCE_SAMPLES * 100) }

/-- Single-text feedback (`handleFeedback`): when learning is enabled, scan
every dictionary keyword against the lower-cased description and apply
`updatePreferences` once per matching (dimension, keyword) pair, in
dictionary order. -/
def handleFeedback (s : LearningSystemState) (description : String)
    (action : FeedbackAction) : LearningSystemState :=
  if s.isEnabled then
    KEYWORD_MAP_ENTRIES.foldl
      (fun s1 entry =>
        entry.2.foldl
          (fun s2 kw =>
            if matchesText kw description then updatePreferences entry.1 kw action s2 else s2)
          s1)
      s
  else s

/-- Accumulator update `weightAdjustments[dimension][keyword] += delta` with
the `if (!…) … = 0` initialisations; a falsy existing numeric entry is `0`,
so the net effect is "previous value (default 0) plus delta". -/
def addW : List (String × ℚ) → String → ℚ → List (String × ℚ)
  | [], key, d => [(key, 0 + d)]
  | (k, v) :: rest, key, d =>
    if k = key then (k, v + d) :: rest else (k, v) :: addW rest key d

/-- Accumulator update at the dimension level of `handleBulkFeedback`. -/
def bumpDimAdj :
    List (MusicalDimension × List (String × ℚ)) → MusicalDimension → String → ℚ →
      List (MusicalDimension × List (String × ℚ))
  | [], d, kw, x => [(d, addW [] kw x)]
  | (d', ws) :: rest, d, kw, x =>
    if d' = d then (d', addW ws kw x) :: rest else (d', ws) :: bumpDimAdj rest d kw x

/-- The raw-delta accumulation phase of `handleBulkFeedback`: sum the deltas
of every matching (dimension, keyword) pair over all descriptions, without
any clamping. -/
def computeAdjustments (descriptions : List String) (action : FeedbackAction) :
    List (MusicalDimension × List (String × ℚ)) :=
  descriptions.foldl
    (fun adj desc =>
      KEYWORD_MAP_ENTRIES.foldl
        (fun adj1 entry =>
          entry.2.foldl
            (fun adj2 kw =>
              if matchesText kw desc then bumpDimAdj adj2 entry.1 kw (actionDelta action)
              else adj2)
            adj1)
        adj)
    []

/-- The application phase of `handleBulkFeedback`: each accumulated delta is
added to the current weight (default 0.1) and clamped once. -/
def applyAdjustments (adjs : List (MusicalDimension × List (String × ℚ)))
    (prefs : LearnedPreferences) : LearnedPreferences :=
  adjs.foldl
    (fun p entry =>
      prefsSet p entry.1
        (entry.2.foldl
          (fun ws kv => setW ws kv.1 (clampW (weightOr ws kv.1 + kv.2)))
          (prefsGet p entry.1)))
    prefs

/-- Bulk feedback (`handleBulkFeedback`): no-op when learning is disabled or
the batch is empty; otherwise accumulate raw deltas over the whole batch,
apply them with a single clamp per keyword, and add the batch length to the
sample counter.  The `JSON.parse(JSON.stringify(…))` deep copy of the
preference table is the identity on the data model. -/
def handleBulkFeedback (s : LearningSystemState) (descriptions : List String)
    (action : FeedbackAction) : LearningSystemState :=
  if s.isEnabled && !descriptions.isEmpty then
    let n := s.sampleCount + descriptions.length
    { s with
      preferences := applyAdjustments (computeAdjustments descriptions action) s.preferences
      sampleCount := n
      confidence := min 100 ((n : ℚ) / MAX_CONFIDENCE_SAMPLES * 100) }
  else s

/-- One dimension-scoped pass of `learnFromSnippetAnalysis`: scan only the
given dimension's keywords against the text, treating a match as a like. -/
def snippetPass (s : LearningSystemState) (text : String) (d : MusicalDimension) :
    LearningSystemState :=
  (KEYWORD_MAP d).foldl
    (fun s2 kw => if matchesText kw text then updatePreferences d kw .like s2 else s2)
    s

/-- Snippet analysis (`learnFromSnippetAnalysis`): the humanization text is
scanned against the humanization dimension only, then the pattern text
against the pattern dimension only. -/
def learnFromSnippetAnalysis (s : LearningSystemState) (humanizationText patternText : String) :
    LearningSystemState :=
  if s.isEnabled then
    snippetPass (snippetPass s humanizationText .humanization) patternText .pattern
  else s

/-- All (dimension, keyword) pairs of the dictionary, in scan order. -/
def allKeywordPairs : List (MusicalDimension × String) :=
  (KEYWORD_MAP_ENTRIES.map fun e => e.2.map fun kw => (e.1, kw)).flatten

/-- The (dimension, keyword) pairs whose keyword matches a given text. -/
def matchedPairs (text : String) : List (MusicalDimension × String) :=
  allKeywordPairs.filter fun p => matchesText p.2 text

/-- Sequential application of `updatePreferences` over a list of
(dimension, keyword) pairs. -/
def applyPairs (pairs : List (MusicalDimension × String)) (action : FeedbackAction)
    (s : LearningSystemState) : LearningSystemState :=
  pairs.foldl (fun s2 p => updatePreferences p.1 p.2 action s2) s

/-- Persisted preference table as found in storage: older states may lack
any subset of the ten dimension keys, so every field is optional
(`none` = the key is absent from the stored JSON object). -/
structure StoredPreferences where
  style : Option PreferenceWeights
  mood : Option PreferenceWeights
  key : Option PreferenceWeights
  instrument : Option PreferenceWeights
  humanization : Option PreferenceWeights
  pattern : Option PreferenceWeights
  harmonic_complexity : Option PreferenceWeights
  melodic_development : Option PreferenceWeights
  dynamic_expression : Option PreferenceWeights
  voice_leading : Option PreferenceWeights
deriving DecidableEq

/-- A parsed stored state that passed the guard
`parsed.preferences && typeof parsed.sampleCount === 'number'`. -/
structure StoredState where
  isEnabled : Bool
  preferences : StoredPreferences
  sampleCount : ℕ
deriving DecidableEq

/-- State as returned by the load path: the preference table keeps the
stored (possibly partial) shape, since the code returns `{...parsed}`. -/
structure LoadedState where
  isEnabled : Bool
  preferences : StoredPreferences
  sampleCount : ℕ
  confidence : ℚ
deriving DecidableEq

/-- The migration assignments of `getInitialState`:
`parsed.preferences[HUMANIZATION] = parsed.preferences[HUMANIZATION] || {}`
and the same for `PATTERN`; no other dimension is touched. -/
def migratePreferences (p : StoredPreferences) : StoredPreferences :=
  { p with
    humanization := some (p.humanization.getD [])
    pattern := some (p.pattern.getD []) }

/-- All ten dimension keys present and empty, as a stored-shape table (the
default-branch `INITIAL_PREFERENCES`). -/
def INITIAL_STORED_PREFERENCES : StoredPreferences :=
  { style := some [], mood := some [], key := some [], instrument := some []
    humanization := some [], pattern := some [], harmonic_complexity := some []
    melodic_development := some [], dynamic_expression := some []
    voice_leading := some [] }

/-- The load/migration operation `getInitialState`: `none` stands for
missing, unparsable, or guard-failing storage and yields the fresh default
state; otherwise the stored state is migrated and the confidence
recomputed. -/
def getInitialState : Option StoredState → LoadedState
  | some st =>
    { isEnabled := st.isEnabled
      preferences := migratePreferences st.preferences
      sampleCount := st.sampleCount
      confidence := min 100 ((st.sampleCount : ℚ) / MAX_CONFIDENCE_SAMPLES * 100) }
  | none =>
    { isEnabled := false
      preferences := INITIAL_STORED_PREFERENCES
      sampleCount := 0
      confidence := 0 }

/-- In-memory note representation (`MidiNote` of `src/types.ts`). -/
structure MidiNote where
  note : ℚ
  velocity : ℚ
  time : ℚ
  duration : ℚ
deriving DecidableEq

/-- Track representation (`MidiTrack` of `src/types.ts`); `trackName` is
optional and `none` models the absent (undefined) property. -/
structure MidiTrack where
  trackName : Option String
  notes : List MidiNote
deriving DecidableEq

/-- Generation result (`MidiGenerationResult` of `src/types.ts`), as far as
the validation pass reads it. -/
structure MidiGenerationResult where
  description : String
  tracks : List MidiTrack
  bpm : Option ℚ
deriving DecidableEq

/-- Per-note clamping of `validateAndEnhanceMidi`: note to [21,108],
velocity to [1,127], time to ≥ 0, duration to ≥ 0.1. -/
def validateNote (n : MidiNote) : MidiNote :=
  { n with
    note := max 21 (min 108 n.note)
    velocity := max 1 (min 127 n.velocity)
    time := max 0 n.time
    duration := max 0.1 n.duration }

/-- Stable insertion of an element into a list sorted by the boolean
relation `le`: the element goes after every existing element that is
`le`-below-or-equal to it. -/
def insertSorted (le : α → α → Bool) (x : α) : List α → List α
  | [] => [x]
  | y :: ys => if le y x then y :: insertSorted le x ys else x :: y :: ys

/-- Stable sort by repeated insertion, processing elements left to right.
ECMAScript `Array.prototype.sort` with a consistent comparator is specified
to be a stable sort, so its result is exactly this list. -/
def jsSort (le : α → α → Bool) (l : List α) : List α :=
  l.foldl (fun acc x => insertSorted le x acc) []

/-- Comparator `(a, b) => a.time - b.time` as a boolean order. -/
def leTime (a b : MidiNote) : Bool := decide (a.time ≤ b.time)

/-- The validation and enhancement pass `validateAndEnhanceMidi`: clamp
every note and re-sort each track's notes by time ascending. -/
def validateAndEnhanceMidi (midiResult : MidiGenerationResult) : MidiGenerationResult :=
  { midiResult with
    tracks := midiResult.tracks.map fun track =>
      { track with notes := jsSort leTime (track.notes.map validateNote) } }

/-- Ticks per quarter note, the fixed resolution of the encoder. -/
def TPQN : ℕ := 480

/-- Tail of the `writeVLQ` loop: `while (value >>= 7)` prepends the next
7-bit group with the continuation bit `0x80` set. -/
def vlqGo (v : ℕ) (buf : List ℕ) : List ℕ :=
  if _h : v = 0 then buf else vlqGo (v / 128) ((v % 128 ||| 128) :: buf)
termination_by v
decreasing_by exact Nat.div_lt_self (Nat.pos_of_ne_zero _h) (by norm_num)

/-- The encoder's variable-length-quantity writer `writeVLQ` (the byte list
it pushes).  On the JavaScript side `value & 0x7F` and `value >>= 7` act on
the 32-bit image of the number; for `0 ≤ value < 2^31` — which covers every
tick delta reachable from realistic inputs and all deltas considered here —
they coincide with `value % 128` and flooring division by 128. -/
def writeVLQ (value : ℕ) : List ℕ :=
  vlqGo (value / 128) [value % 128]

/-- Reference VLQ decoder: big-endian accumulation of the low 7 bits of
each byte. -/
def vlqDecode (bytes : List ℕ) : ℕ :=
  bytes.foldl (fun acc b => acc * 128 + b % 128) 0

/-- JavaScript `ToInteger` truncation toward zero. -/
def jsTrunc (q : ℚ) : ℤ :=
  if 0 ≤ q then ⌊q⌋ else -⌊-q⌋

/-- Conversion performed element-wise by `new Uint8Array([...])`:
truncate toward zero, then reduce modulo 2^8. -/
def jsToUint8 (q : ℚ) : ℕ := (jsTrunc q % 256).toNat

/-- JavaScript number formatting as used by `JSON.stringify`, modelled at
integer values (where it is exactly `toString`); the fallback branch for
non-integral rationals is never exercised by any theorem in this file,
since IEEE double shortest-representation printing is out of scope. -/
def jsNum (q : ℚ) : String :=
  if q.den = 1 then toString q.num else toString q.num ++ "/" ++ toString q.den

/-- `JSON.stringify` of one weight map: keys in insertion order; dictionary
keywords contain no characters needing JSON escapes. -/
def jsonWeights (ws : PreferenceWeights) : String :=
  "\x7b" ++ String.intercalate "," (ws.map fun kv => "\"" ++ kv.1 ++ "\":" ++ jsNum kv.2) ++ "\x7d"

/-- The side-channel payload string built by `createTrackChunk`:
`JSON.stringify` of exactly the five fields style, mood, key, pattern,
humanization, in that literal order. -/
def jsonPrefs (p : LearnedPreferences) : String :=
  "\x7b\"style\":" ++ jsonWeights p.style ++
    ",\"mood\":" ++ jsonWeights p.mood ++
    ",\"key\":" ++ jsonWeights p.key ++
    ",\"pattern\":" ++ jsonWeights p.pattern ++
    ",\"humanization\":" ++ jsonWeights p.humanization ++ "\x7d"

/-- Event kind tag of the encoder's internal `MidiEvent`. -/
inductive MidiEventType
  | on | off
deriving DecidableEq, Repr

/-- The encoder's internal event record
`{ tick: number; type: 'on' | 'off'; note: number; velocity: number }`. -/
structure MidiEvent where
  tick : ℤ
  type : MidiEventType
  note : ℚ
  velocity : ℚ
deriving DecidableEq

/-- Note-to-event conversion of `createTrackChunk`: each note yields an on
event at `round(time / secondsPerTick)` with the duration-adjusted velocity
`min(127, max(0, velocity + round((duration - 0.5) * 15)))`, and an off
event at `round((time + duration) / secondsPerTick)` with velocity 0. -/
def midiEventsOf (notes : List MidiNote) (bpm : ℚ) : List MidiEvent :=
  let secondsPerTick := 60 / (bpm * (TPQN : ℚ))
  (notes.map fun note =>
    [{ tick := jsRound (note.time / secondsPerTick)
       type := .on
       note := note.note
       velocity := min 127 (max 0 (note.velocity + (jsRound ((note.duration - 0.5) * 15) : ℚ))) },
     { tick := jsRound ((note.time + note.duration) / secondsPerTick)
       type := .off
       note := note.note
       velocity := 0 }]).flatten

/-- Comparator `(a, b) => a.tick - b.tick` as a boolean order. -/
def leTick (a b : MidiEvent) : Bool := decide (a.tick ≤ b.tick)

/-- The event-emission loop of `createTrackChunk`: each event contributes
its delta time (VLQ of `tick - lastTick`) followed by status byte
(`0x90` on / `0x80` off), note number and velocity, the running `lastTick`
advancing to the event's tick.  Sorted events make every delta non-negative,
so taking `toNat` of the difference is exact on all reachable inputs. -/
def emitEvents : List MidiEvent → ℤ → List ℚ
  | [], _ => []
  | e :: es, lastTick =>
    (writeVLQ (e.tick - lastTick).toNat).map (fun b => (b : ℚ))
      ++ [(if e.type = .on then (0x90 : ℚ) else 0x80), e.note, e.velocity]
      ++ emitEvents es e.tick

/-- Tempo meta event `FF 51 03` with the 24 bits of
`Math.round(60000000 / bpm)` (the shifts-and-masks act on the non-negative
value obtained for every positive bpm). -/
def tempoMetaEvent (bpm : ℚ) : List ℚ :=
  let tempo := (jsRound (60000000 / bpm)).toNat
  (writeVLQ 0).map (fun b => (b : ℚ)) ++
    ([0xFF, 0x51, 0x03, (((tempo >>> 16) &&& 0xFF : ℕ) : ℚ),
      (((tempo >>> 8) &&& 0xFF : ℕ) : ℚ), ((tempo &&& 0xFF : ℕ) : ℚ)] : List ℚ)

/-- Track-name meta event `FF 03 <len> <ascii>`; the length is pushed as a
single raw number, not as a VLQ. -/
def nameMetaEvent (nm : String) : List ℚ :=
  (writeVLQ 0).map (fun b => (b : ℚ)) ++
    [0xFF, 0x03, (nm.length : ℚ)] ++ nm.toList.map fun c => (c.toNat : ℚ)

/-- Side-channel text meta event `FF 01 <len> <ascii>` carrying the
JSON-encoded preferences; as with the name event, the length is pushed as a
single raw number, not as a VLQ. -/
def prefsMetaEvent (p : LearnedPreferences) : List ℚ :=
  let payload := jsonPrefs p
  (writeVLQ 0).map (fun b => (b : ℚ)) ++
    [0xFF, 0x01, (payload.length : ℚ)] ++ payload.toList.map fun c => (c.toNat : ℚ)

/-- End-of-track meta event `FF 2F 00` at delta 0. -/
def endOfTrackEvent : List ℚ :=
  (writeVLQ 0).map (fun b => (b : ℚ)) ++ [0xFF, 0x2F, 0x00]

/-- One MTrk chunk (`createTrackChunk`): tempo event unless the track is
literally named "Tempo Track", name event when a (truthy, hence non-empty)
name is present, side-channel event when preferences are supplied, then the
sorted note events with running deltas and the end-of-track marker, framed
by "MTrk" and the 32-bit big-endian data length.  The final `Uint8Array`
construction reduces every pushed number modulo 2^8. -/
def createTrackChunk (track : MidiTrack) (bpm : ℚ)
    (preferences : Option LearnedPreferences) : List ℕ :=
  let events := jsSort leTick (midiEventsOf track.notes bpm)
  let trackData : List ℚ :=
    (if track.trackName ≠ some "Tempo Track" then tempoMetaEvent bpm else [])
      ++ (match track.trackName with
          | some nm => if nm ≠ "" then nameMetaEvent nm else []
          | none => [])
      ++ (match preferences with
          | some p => prefsMetaEvent p
          | none => [])
      ++ emitEvents events 0
      ++ endOfTrackEvent
  let len := trackData.length
  [0x4d, 0x54, 0x72, 0x6b,
   (len >>> 24) &&& 0xFF, (len >>> 16) &&& 0xFF, (len >>> 8) &&& 0xFF, len &&& 0xFF]
    ++ trackData.map jsToUint8

/-- The complete file (`createMidiBlob`): the fixed 14-byte MThd header
(magic, length 6, format 1, big-endian track count, division `TPQN`)
followed by each track's MTrk chunk in input order. -/
def createMidiBlob (tracks : List MidiTrack) (bpm : ℚ)
    (preferences : Option LearnedPreferences) : List ℕ :=
  let n := tracks.length
  [0x4d, 0x54, 0x68, 0x64, 0x00, 0x00, 0x00, 0x06, 0x00, 0x01,
   (n >>> 8) &&& 0xFF, n &&& 0xFF, (TPQN >>> 8) &&& 0xFF, TPQN &&& 0xFF]
    ++ (tracks.map fun t => createTrackChunk t bpm preferences).flatten

/-- Folding a conditionally-applied step equals folding the step over the
filtered list. -/
theorem foldl_ite_filter {α β : Type} (f : β → α → β) (c : α → Bool) :
    ∀ (l : List α) (b : β),
      l.foldl (fun acc x => if c x then f acc x else acc) b = (l.filter c).foldl f b := by
  intro l
  induction l with
  | nil => intro b; rfl
  | cons x xs ih =>
    intro b
    by_cases hx : c x <;> simp [List.filter_cons, hx, ih]

/-- A predicate preserved by every step of a fold is preserved by the fold. -/
theorem foldl_preserve {α β : Type} {P : β → Prop} (f : β → α → β)
    (hf : ∀ b a, P b → P (f b a)) :
    ∀ (l : List α) (b : β), P b → P (l.foldl f b) := by
  intro l
  induction l with
  | nil => intro b hb; exact hb
  | cons x xs ih => intro b hb; exact ih (f b x) (hf b x hb)

theorem updatePreferences_sampleCount (d : MusicalDimension) (kw : String)
    (a : FeedbackAction) (s : LearningSystemState) :
    (updatePreferences d kw a s).sampleCount = s.sampleCount + 1 := rfl

theorem updatePreferences_isEnabled (d : MusicalDimension) (kw : String)
    (a : FeedbackAction) (s : LearningSystemState) :
    (updatePreferences d kw a s).isEnabled = s.isEnabled := rfl

theorem applyPairs_sampleCount (a : FeedbackAction) :
    ∀ (ps : List (MusicalDimension × String)) (s : LearningSystemState),
      (applyPairs ps a s).sampleCount = s.sampleCount + ps.length := by
  intro ps
  induction ps with
  | nil => intro s; rfl
  | cons p ps ih =>
    intro s
    show (applyPairs ps a (updatePreferences p.1 p.2 a s)).sampleCount = _
    rw [ih, updatePreferences_sampleCount, List.length_cons]
    omega

theorem applyPairs_isEnabled (a : FeedbackAction) :
    ∀ (ps : List (MusicalDimension × String)) (s : LearningSystemState),
      (applyPairs ps a s).isEnabled = s.isEnabled := by
  intro ps
  induction ps with
  | nil => intro s; rfl
  | cons p ps ih =>
    intro s
    show (applyPairs ps a (updatePreferences p.1 p.2 a s)).isEnabled = _
    rw [ih, updatePreferences_isEnabled]

/-- When learning is enabled, `handleFeedback` is exactly one
`updatePreferences` call per matching (dimension, keyword) pair, applied in
dictionary scan order. -/
theorem handleFeedback_eq_applyPairs (s : LearningSystemState) (description : String)
    (action : FeedbackAction) (h : s.isEnabled = true) :
    handleFeedback s description action = applyPairs (matchedPairs description) action s := by
  unfold handleFeedback
  rw [h, if_pos rfl]
  unfold matchedPairs allKeywordPairs applyPairs
  rw [List.filter_flatten, List.foldl_flatten, List.foldl_map, List.foldl_map]
  congr 1
  funext s1 entry
  rw [List.filter_map, List.foldl_map]
  rw [foldl_ite_filter
    (fun s2 kw => updatePreferences entry.1 kw action s2)
    (fun kw => matchesText kw description)]
  rfl

/-- Every keyword weight present in a weight map lies in [0.1, 1.0]. -/
def WeightsOK (ws : PreferenceWeights) : Prop :=
  ∀ kv ∈ ws, (0.1 : ℚ) ≤ kv.2 ∧ kv.2 ≤ 1

instance (ws : PreferenceWeights) : Decidable (WeightsOK ws) := by
  unfold WeightsOK; infer_instance

/-- Every keyword weight present in any dimension lies in [0.1, 1.0]. -/
def PrefsOK (p : LearnedPreferences) : Prop :=
  ∀ d, WeightsOK (prefsGet p d)

instance (p : LearnedPreferences) : Decidable (PrefsOK p) := by
  unfold PrefsOK
  have : ∀ d, Decidable (WeightsOK (prefsGet p d)) := fun _ => inferInstance
  exact decidable_of_iff
    (WeightsOK p.style ∧ WeightsOK p.mood ∧ WeightsOK p.key ∧ WeightsOK p.instrument ∧
      WeightsOK p.humanization ∧ WeightsOK p.pattern ∧ WeightsOK p.harmonic_complexity ∧
      WeightsOK p.melodic_development ∧ WeightsOK p.dynamic_expression ∧
      WeightsOK p.voice_leading)
    (by
      constructor
      · rintro ⟨h1, h2, h3, h4, h5, h6, h7, h8, h9, h10⟩ d
        cases d <;> assumption
      · intro h
        exact ⟨h .style, h .mood, h .key, h .instrument, h .humanization, h .pattern,
          h .harmonic_complexity, h .melodic_development, h .dynamic_expression,
          h .voice_leading⟩)

theorem clampW_bounds (x : ℚ) : (0.1 : ℚ) ≤ clampW x ∧ clampW x ≤ 1 := by
  unfold clampW
  constructor
  · exact le_max_left _ _
  · exact max_le (by norm_num) (min_le_left _ _)

theorem mem_setW (key : String) (v : ℚ) :
    ∀ (ws : PreferenceWeights) (kv : String × ℚ),
      kv ∈ setW ws key v → kv ∈ ws ∨ kv = (key, v) := by
  intro ws
  induction ws with
  | nil =>
    intro kv h
    simp only [setW, List.mem_singleton] at h
    exact Or.inr h
  | cons hd tl ih =>
    intro kv h
    obtain ⟨k, w⟩ := hd
    simp only [setW] at h
    by_cases hk : k = key
    · rw [if_pos hk] at h
      rcases List.mem_cons.mp h with h1 | h1
      · exact Or.inr (h1.trans (by rw [hk]))
      · exact Or.inl (List.mem_cons_of_mem _ h1)
    · rw [if_neg hk] at h
      rcases List.mem_cons.mp h with h1 | h1
      · exact Or.inl (h1 ▸ List.mem_cons_self _ _)
      · rcases ih kv h1 with h2 | h2
        · exact Or.inl (List.mem_cons_of_mem _ h2)
        · exact Or.inr h2

theorem WeightsOK_setW {ws : PreferenceWeights} (h : WeightsOK ws) (key : String)
    {v : ℚ} (hv : (0.1 : ℚ) ≤ v ∧ v ≤ 1) : WeightsOK (setW ws key v) := by
  intro kv hkv
  rcases mem_setW key v ws kv hkv with h1 | h1
  · exact h kv h1
  · rw [h1]; exact hv

theorem prefsGet_prefsSet (p : LearnedPreferences) (d : MusicalDimension)
    (ws : PreferenceWeights) (d' : MusicalDimension) :
    prefsGet (prefsSet p d ws) d' = if d' = d then ws else prefsGet p d' := by
  cases d <;> cases d' <;> simp [prefsGet, prefsSet]

theorem PrefsOK_prefsSet {p : LearnedPreferences} (h : PrefsOK p) (d : MusicalDimension)
    {ws : PreferenceWeights} (hws : WeightsOK ws) : PrefsOK (prefsSet p d ws) := by
  intro d'
  rw [prefsGet_prefsSet]
  by_cases hd : d' = d
  · rw [if_pos hd]; exact hws
  · rw [if_neg hd]; exact h d'

theorem PrefsOK_updatePreferences {s : LearningSystemState} (h : PrefsOK s.preferences)
    (d : MusicalDimension) (kw : String) (a : FeedbackAction) :
    PrefsOK (updatePreferences d kw a s).preferences := by
  exact PrefsOK_prefsSet h d (WeightsOK_setW (h d) kw (clampW_bounds _))

theorem PrefsOK_handleFeedback {s : LearningSystemState} (h : PrefsOK s.preferences)
    (description : String) (action : FeedbackAction) :
    PrefsOK (handleFeedback s description action).preferences := by
  unfold handleFeedback
  by_cases he : s.isEnabled
  · rw [if_pos he]
    refine foldl_preserve (P := fun st : LearningSystemState => PrefsOK st.preferences) _ ?_ _ _ h
    intro st entry hst
    refine foldl_preserve (P := fun st : LearningSystemState => PrefsOK st.preferences) _ ?_ _ _ hst
    intro st2 kw hst2
    by_cases hm : matchesText kw description
    · rw [if_pos hm]; exact PrefsOK_updatePreferences hst2 _ _ _
    · rw [if_neg hm]; exact hst2
  · rw [if_neg he]; exact h

theorem PrefsOK_applyAdjustments {p : LearnedPreferences} (h : PrefsOK p)
    (adjs : List (MusicalDimension × List (String × ℚ))) :
    PrefsOK (applyAdjustments adjs p) := by
  unfold applyAdjustments
  refine foldl_preserve (P := PrefsOK) _ ?_ _ _ h
  intro q entry hq
  refine PrefsOK_prefsSet hq entry.1 ?_
  refine foldl_preserve (P := WeightsOK) _ ?_ _ _ (hq entry.1)
  intro ws kv hws
  exact WeightsOK_setW hws kv.1 (clampW_bounds _)

theorem PrefsOK_handleBulkFeedback {s : LearningSystemState} (h : PrefsOK s.preferences)
    (descriptions : List String) (action : FeedbackAction) :
    PrefsOK (handleBulkFeedback s descriptions action).preferences := by
  unfold handleBulkFeedback
  by_cases hc : s.isEnabled && !descriptions.isEmpty
  · rw [if_pos hc]; exact PrefsOK_applyAdjustments h _
  · rw [if_neg hc]; exact h

theorem PrefsOK_learnFromSnippetAnalysis {s : LearningSystemState} (h : PrefsOK s.preferences)
    (humanizationText patternText : String) :
    PrefsOK (learnFromSnippetAnalysis s humanizationText patternText).preferences := by
  unfold learnFromSnippetAnalysis
  have hpass : ∀ (st : LearningSystemState) (text : String) (d : MusicalDimension),
      PrefsOK st.preferences → PrefsOK (snippetPass st text d).preferences := by
    intro st text d hst
    unfold snippetPass
    refine foldl_preserve (P := fun x : LearningSystemState => PrefsOK x.preferences) _ ?_ _ _ hst
    intro st2 kw hst2
    by_cases hm : matchesText kw text
    · rw [if_pos hm]; exact PrefsOK_updatePreferences hst2 _ _ _
    · rw [if_neg hm]; exact hst2
  by_cases he : s.isEnabled
  · rw [if_pos he]
    exact hpass _ _ _ (hpass _ _ _ h)
  · rw [if_neg he]; exact h

/-- A feedback operation of the engine's public mutation surface. -/
inductive FeedbackOp
  | feedback (text : String) (action : FeedbackAction)
  | bulk (texts : List String) (action : FeedbackAction)
  | snippet (humanizationText patternText : String)

/-- Application of one feedback operation to the engine state. -/
def applyOp (s : LearningSystemState) : FeedbackOp → LearningSystemState
  | .feedback text action => handleFeedback s text action
  | .bulk texts action => handleBulkFeedback s texts action
  | .snippet humanizationText patternText =>
    learnFromSnippetAnalysis s humanizationText patternText

/-- Sequential application of a list of feedback operations. -/
def applyOps (ops : List FeedbackOp) (s : LearningSystemState) : LearningSystemState :=
  ops.foldl applyOp s

theorem lor128_eq (n : ℕ) (h : n < 128) : n ||| 128 = n + 128 := by
  have : ∀ m < 128, m ||| 128 = m + 128 := by decide
  exact this n h

theorem vlqGo_zero (buf : List ℕ) : vlqGo 0 buf = buf := by
  rw [vlqGo.eq_def]
  rfl

theorem vlqGo_append (v : ℕ) : ∀ buf, vlqGo v buf = vlqGo v [] ++ buf := by
  induction v using Nat.strong_induction_on with
  | _ v ih =>
    intro buf
    by_cases h : v = 0
    · subst h
      rw [vlqGo_zero, vlqGo_zero]
      rfl
    · have hlt : v / 128 < v := Nat.div_lt_self (Nat.pos_of_ne_zero h) (by norm_num)
      rw [vlqGo.eq_def, dif_neg h, ih _ hlt]
      conv_rhs => rw [vlqGo.eq_def, dif_neg h, ih _ hlt]
      rw [List.append_assoc]
      rfl

theorem vlqDecode_append_singleton (l : List ℕ) (b : ℕ) :
    vlqDecode (l ++ [b]) = vlqDecode l * 128 + b % 128 := by
  unfold vlqDecode
  rw [List.foldl_append]
  rfl

theorem vlqDecode_vlqGo_nil (v : ℕ) : vlqDecode (vlqGo v []) = v := by
  induction v using Nat.strong_induction_on with
  | _ v ih =>
    by_cases h : v = 0
    · subst h; rw [vlqGo_zero]; rfl
    · have hlt : v / 128 < v := Nat.div_lt_self (Nat.pos_of_ne_zero h) (by norm_num)
      rw [vlqGo.eq_def, dif_neg h, vlqGo_append, vlqDecode_append_singleton, ih _ hlt,
        lor128_eq _ (Nat.mod_lt v (by norm_num))]
      omega

theorem mem_vlqGo_nil (v : ℕ) : ∀ b ∈ vlqGo v [], 128 ≤ b ∧ b ≤ 255 := by
  induction v using Nat.strong_induction_on with
  | _ v ih =>
    intro b hb
    by_cases h : v = 0
    · subst h; rw [vlqGo.eq_def] at hb; simp at hb
    · have hlt : v / 128 < v := Nat.div_lt_self (Nat.pos_of_ne_zero h) (by norm_num)
      rw [vlqGo.eq_def, dif_neg h, vlqGo_append] at hb
      rcases List.mem_append.mp hb with h1 | h1
      · exact ih _ hlt b h1
      · have hm : v % 128 < 128 := Nat.mod_lt v (by norm_num)
        rw [List.mem_singleton] at h1
        rw [h1, lor128_eq _ hm]
        omega

theorem head_vlqGo_nil (v : ℕ) (hv : v ≠ 0) :
    ∃ b, (vlqGo v []).head? = some b ∧ 129 ≤ b ∧ b ≤ 255 := by
  induction v using Nat.strong_induction_on with
  | _ v ih =>
    have hlt : v / 128 < v := Nat.div_lt_self (Nat.pos_of_ne_zero hv) (by norm_num)
    have hm : v % 128 < 128 := Nat.mod_lt v (by norm_num)
    by_cases hq : v / 128 = 0
    · refine ⟨v % 128 ||| 128, ?_, ?_, ?_⟩
      · rw [vlqGo.eq_def, dif_neg hv, hq, vlqGo.eq_def]
        rfl
      · rw [lor128_eq _ hm]
        have : v % 128 ≠ 0 := by
          intro h0
          exact hv (by omega)
        omega
      · rw [lor128_eq _ hm]; omega
    · obtain ⟨b, hb, hb1, hb2⟩ := ih _ hlt hq
      refine ⟨b, ?_, hb1, hb2⟩
      rw [vlqGo.eq_def, dif_neg hv, vlqGo_append]
      rw [List.head?_append_of_ne_nil]
      · exact hb
      · intro hnil
        rw [hnil] at hb
        exact Option.noConfusion hb

theorem vlqGo_nil_ne_nil (v : ℕ) (hv : v ≠ 0) : vlqGo v [] ≠ [] := by
  obtain ⟨b, hb, _, _⟩ := head_vlqGo_nil v hv
  intro hnil
  rw [hnil] at hb
  exact Option.noConfusion hb

/-- The properties of the VLQ writer asserted by the specification at a
single value: reference-decoder round trip; continuation bit `0x80` set on
every byte but the last; final byte below `0x80`; no superfluous leading
byte (a multi-byte encoding starts with a byte whose payload bits are
non-zero, i.e. a byte in [0x81, 0xFF]); and zero encoding as the single
byte `0x00`. -/
def VlqSpecAt (v : ℕ) : Prop :=
  vlqDecode (writeVLQ v) = v ∧
  (∀ b ∈ (writeVLQ v).dropLast, 128 ≤ b ∧ b ≤ 255) ∧
  (writeVLQ v).getLast?.getD 128 < 128 ∧
  (2 ≤ (writeVLQ v).length →
    129 ≤ (writeVLQ v).head?.getD 0 ∧ (writeVLQ v).head?.getD 0 ≤ 255) ∧
  writeVLQ 0 = [0]

theorem writeVLQ_eq_concat (v : ℕ) : writeVLQ v = vlqGo (v / 128) [] ++ [v % 128] := by
  unfold writeVLQ
  rw [vlqGo_append]

theorem writeVLQ_zero : writeVLQ 0 = [0] := by
  unfold writeVLQ
  norm_num
  exact vlqGo_zero [0]

theorem vlqSpecAt_holds (v : ℕ) : VlqSpecAt v := by
  have hm : v % 128 < 128 := Nat.mod_lt v (by norm_num)
  refine ⟨?_, ?_, ?_, ?_, writeVLQ_zero⟩
  · rw [writeVLQ_eq_concat, vlqDecode_append_singleton, vlqDecode_vlqGo_nil]
    omega
  · rw [writeVLQ_eq_concat, List.dropLast_concat]
    exact mem_vlqGo_nil _
  · rw [writeVLQ_eq_concat, List.getLast?_concat]
    simpa using hm
  · intro hlen
    have hne : vlqGo (v / 128) [] ≠ [] := by
      intro hnil
      rw [writeVLQ_eq_concat, hnil] at hlen
      simp at hlen
    have hq : v / 128 ≠ 0 := by
      intro h0
      exact hne (by rw [h0, vlqGo_zero])
    obtain ⟨b, hb, hb1, hb2⟩ := head_vlqGo_nil _ hq
    rw [writeVLQ_eq_concat, List.head?_append_of_ne_nil _ hne, hb]
    exact ⟨hb1, hb2⟩

theorem mem_insertSorted {α : Type} (le : α → α → Bool) (x : α) :
    ∀ (l : List α) (z : α), z ∈ insertSorted le x l ↔ z = x ∨ z ∈ l := by
  intro l
  induction l with
  | nil => intro z; simp [insertSorted]
  | cons y ys ih =>
    intro z
    unfold insertSorted
    by_cases hc : le y x
    · rw [if_pos hc]
      simp only [List.mem_cons, ih]
      tauto
    · rw [if_neg hc]
      simp only [List.mem_cons]

theorem pairwise_insertSorted {α : Type} (le : α → α → Bool)
    (htot : ∀ a b, le a b = true ∨ le b a = true)
    (htrans : ∀ a b c, le a b = true → le b c = true → le a c = true) (x : α) :
    ∀ l : List α, l.Pairwise (fun a b => le a b = true) →
      (insertSorted le x l).Pairwise (fun a b => le a b = true) := by
  intro l
  induction l with
  | nil => intro _; simp [insertSorted]
  | cons y ys ih =>
    intro h
    rw [List.pairwise_cons] at h
    obtain ⟨hy, hys⟩ := h
    unfold insertSorted
    by_cases hc : le y x
    · rw [if_pos hc]
      rw [List.pairwise_cons]
      refine ⟨?_, ih hys⟩
      intro z hz
      rcases (mem_insertSorted le x ys z).mp hz with h1 | h1
      · rw [h1]; exact hc
      · exact hy z h1
    · rw [if_neg hc]
      have hxy : le x y = true := by
        rcases htot x y with h1 | h1
        · exact h1
        · exact absurd h1 (by simpa using hc)
      rw [List.pairwise_cons]
      refine ⟨?_, List.pairwise_cons.mpr ⟨hy, hys⟩⟩
      intro z hz
      rcases List.mem_cons.mp hz with h1 | h1
      · rw [h1]; exact hxy
      · exact htrans x y z hxy (hy z h1)

theorem mem_jsSort_of {α : Type} (le : α → α → Bool) (Q : α → Prop) :
    ∀ (l acc : List α), (∀ z ∈ acc, Q z) → (∀ z ∈ l, Q z) →
      ∀ z ∈ l.foldl (fun a x => insertSorted le x a) acc, Q z := by
  intro l
  induction l with
  | nil => intro acc hacc _ z hz; exact hacc z hz
  | cons x xs ih =>
    intro acc hacc hl z hz
    refine ih (insertSorted le x acc) ?_ ?_ z hz
    · intro w hw
      rcases (mem_insertSorted le x acc w).mp hw with h1 | h1
      · rw [h1]; exact hl x (List.mem_cons_self _ _)
      · exact hacc w h1
    · intro w hw
      exact hl w (List.mem_cons_of_mem _ hw)

theorem pairwise_jsSort {α : Type} (le : α → α → Bool)
    (htot : ∀ a b, le a b = true ∨ le b a = true)
    (htrans : ∀ a b c, le a b = true → le b c = true → le a c = true) (l : List α) :
    (jsSort le l).Pairwise (fun a b => le a b = true) := by
  unfold jsSort
  refine foldl_preserve
    (P := fun acc : List α => acc.Pairwise (fun a b => le a b = true)) _ ?_ _ _ ?_
  · intro acc x hacc
    exact pairwise_insertSorted le htot htrans x acc hacc
  · exact List.Pairwise.nil

/-- Enabled engine state whose only stored weight is "jazz" at `w` in the
style dimension. -/
def jazzState (w : ℚ) : LearningSystemState :=
  { isEnabled := true
    preferences := { INITIAL_PREFERENCES with style := [("jazz", w)] }
    sampleCount := 0
    confidence := 0 }

/-- Final "jazz" weight after one bulk call on two texts "jazz". -/
def jazzWeightAfterBulk (w : ℚ) : ℚ :=
  (lookupW (handleBulkFeedback (jazzState w) ["jazz", "jazz"] .like).preferences.style
    "jazz").getD 0

/-- Final "jazz" weight after two sequential single-feedback calls on the
text "jazz". -/
def jazzWeightAfterSeq (w : ℚ) : ℚ :=
  (lookupW (handleFeedback (handleFeedback (jazzState w) "jazz" .like) "jazz"
      .like).preferences.style "jazz").getD 0

set_option maxRecDepth 8000 in
theorem computeAdjustments_jazz :
    computeAdjustments ["jazz", "jazz"] .like = [(.style, [("jazz", 0.2)])] := by
  have h : computeAdjustments ["jazz", "jazz"] .like
      = [(.style, [("jazz", 0 + actionDelta .like + actionDelta .like)])] := rfl
  rw [h]
  norm_num [actionDelta, LEARNING_RATE]

theorem matchedPairs_jazz : matchedPairs "jazz" = [(.style, "jazz")] := by
  decide

theorem bulk_jazz_style (w : ℚ) (hw : w ≠ 0) :
    (handleBulkFeedback (jazzState w) ["jazz", "jazz"] .like).preferences.style
      = [("jazz", clampW (w + 0.2))] := by
  show (applyAdjustments (computeAdjustments ["jazz", "jazz"] .like)
      (jazzState w).preferences).style = _
  rw [computeAdjustments_jazz]
  simp only [applyAdjustments, List.foldl_cons, List.foldl_nil, prefsGet, prefsSet,
    jazzState, weightOr, lookupW, setW, if_pos]
  rw [if_neg hw]

theorem seq_jazz_style (w : ℚ) (hw : w ≠ 0) :
    (handleFeedback (handleFeedback (jazzState w) "jazz" .like) "jazz" .like).preferences.style
      = [("jazz", clampW (clampW (w + 0.1) + 0.1))] := by
  have h1 : (jazzState w).isEnabled = true := rfl
  rw [handleFeedback_eq_applyPairs _ _ _ h1, matchedPairs_jazz]
  have h2 : (applyPairs [(.style, "jazz")] .like (jazzState w)).isEnabled = true := by
    rw [applyPairs_isEnabled]
    rfl
  rw [handleFeedback_eq_applyPairs _ _ _ h2, matchedPairs_jazz]
  show (updatePreferences .style "jazz" .like
      (updatePreferences .style "jazz" .like (jazzState w))).preferences.style = _
  have hcl : clampW (w + 0.1) ≠ 0 := by
    have := (clampW_bounds (w + 0.1)).1
    intro h0
    rw [h0] at this
    norm_num at this
  simp only [updatePreferences, prefsGet, prefsSet, jazzState, weightOr, lookupW, setW,
    actionDelta, LEARNING_RATE, if_pos]
  rw [if_neg hw, if_neg hcl]

theorem clampW_eq_one (x : ℚ) (h : 1 ≤ x) : clampW x = 1 := by
  simp only [clampW, max_def, min_def]
  split_ifs <;> linarith

/-- Saturation near the 1.0 ceiling: from any starting weight of at least
0.8, the bulk path's summed +0.2 delta reaches the ceiling and so does the
sequential pair of +0.1 deltas, so both paths clamp the "jazz" weight to
exactly 1.  Because a saturating `Math.min(1.0, _)` returns the exact
double 1.0 in the source as well, this range is insensitive to
floating-point rounding, and the rational model is faithful on it. -/
theorem bulk_seq_jazz_saturate (w : ℚ) (h1 : (0.8 : ℚ) ≤ w) :
    jazzWeightAfterBulk w = 1 ∧ jazzWeightAfterSeq w = 1 := by
  have hw : w ≠ 0 := by
    intro h0
    rw [h0] at h1
    norm_num at h1
  constructor
  · unfold jazzWeightAfterBulk
    rw [bulk_jazz_style w hw]
    simp only [lookupW, if_pos, Option.getD_some]
    exact clampW_eq_one _ (by linarith)
  · unfold jazzWeightAfterSeq
    rw [seq_jazz_style w hw]
    simp only [lookupW, if_pos, Option.getD_some]
    have h9 : (0.9 : ℚ) ≤ clampW (w + 0.1) := by
      simp only [clampW]
      exact le_trans (le_min (by norm_num) (by linarith)) (le_max_right _ _)
    exact clampW_eq_one _ (by linarith)

theorem vlqGo_unfold (v : ℕ) (buf : List ℕ) :
    vlqGo v buf = if v = 0 then buf else vlqGo (v / 128) ((v % 128 ||| 128) :: buf) := by
  rw [vlqGo.eq_def]
  by_cases h : v = 0 <;> simp [h]

theorem jsRound_eq (q : ℚ) (n : ℤ) (h1 : (n : ℚ) ≤ q + 1/2) (h2 : q + 1/2 < n + 1) :
    jsRound q = n := by
  unfold jsRound
  rw [Int.floor_eq_iff]
  exact ⟨h1, by exact_mod_cast h2⟩

theorem writeVLQ_480 : writeVLQ 480 = [131, 96] := by
  unfold writeVLQ
  rw [show (480 : ℕ) / 128 = 3 from by norm_num, show (480 : ℕ) % 128 = 96 from by norm_num,
    vlqGo_unfold]
  norm_num
  rw [show (3 : ℕ) ||| 128 = 131 from by decide, vlqGo_zero]

theorem writeVLQ_96 : writeVLQ 96 = [96] := by
  unfold writeVLQ
  rw [show (96 : ℕ) / 128 = 0 from by norm_num, show (96 : ℕ) % 128 = 96 from by norm_num,
    vlqGo_zero]

theorem jsToUint8_natCast (b : ℕ) (hb : b < 256) : jsToUint8 (b : ℚ) = b := by
  unfold jsToUint8 jsTrunc
  rw [if_pos (by positivity), Int.floor_natCast]
  omega

/-- The "Melody" track of the specification's structural MIDI scenario. -/
def melodyTrack : MidiTrack :=
  { trackName := some "Melody"
    notes := [{ note := 60, velocity := 80, time := 0, duration := 0.5 },
              { note := 64, velocity := 80, time := 0.5, duration := 0.5 }] }

theorem melody_events :
    midiEventsOf melodyTrack.notes 120 =
      [{ tick := 0, type := .on, note := 60, velocity := 80 },
       { tick := 480, type := .off, note := 60, velocity := 0 },
       { tick := 480, type := .on, note := 64, velocity := 80 },
       { tick := 960, type := .off, note := 64, velocity := 0 }] := by
  have hv : jsRound (((0.5 : ℚ) - 0.5) * 15) = 0 := jsRound_eq _ 0 (by norm_num) (by norm_num)
  simp only [midiEventsOf, melodyTrack, List.map_cons, List.map_nil, List.flatten_cons,
    List.flatten_nil, List.cons_append, List.nil_append, List.append_nil, hv]
  rw [jsRound_eq ((0 : ℚ) / (60 / (120 * (TPQN : ℚ)))) 0 (by norm_num [TPQN]) (by norm_num [TPQN])]
  norm_num [TPQN, MidiEvent.mk.injEq, max_def, min_def]
  constructor
  · exact jsRound_eq _ 480 (by norm_num) (by norm_num)
  · exact jsRound_eq _ 960 (by norm_num) (by norm_num)

theorem melody_sorted :
    jsSort leTick
      [{ tick := 0, type := .on, note := 60, velocity := 80 },
       { tick := 480, type := .off, note := 60, velocity := 0 },
       { tick := 480, type := .on, note := 64, velocity := 80 },
       { tick := 960, type := .off, note := 64, velocity := 0 }] =
      [{ tick := 0, type := .on, note := 60, velocity := 80 },
       { tick := 480, type := .off, note := 60, velocity := 0 },
       { tick := 480, type := .on, note := 64, velocity := 80 },
       { tick := 960, type := .off, note := 64, velocity := 0 }] := rfl

theorem melody_emit :
    emitEvents
      [{ tick := 0, type := .on, note := 60, velocity := 80 },
       { tick := 480, type := .off, note := 60, velocity := 0 },
       { tick := 480, type := .on, note := 64, velocity := 80 },
       { tick := 960, type := .off, note := 64, velocity := 0 }] 0 =
      ([0, 144, 60, 80, 131, 96, 128, 60, 0, 0, 144, 64, 80, 131, 96, 128, 64, 0] : List ℚ) := by
  simp only [emitEvents]
  norm_num
  rw [show (480 : ℤ).toNat = 480 from by decide, writeVLQ_480, writeVLQ_zero]
  simp

theorem tempo_120 : tempoMetaEvent 120 = ([0, 255, 81, 3, 7, 161, 32] : List ℚ) := by
  unfold tempoMetaEvent
  rw [jsRound_eq ((60000000 : ℚ) / 120) 500000 (by norm_num) (by norm_num), writeVLQ_zero]
  norm_num [show ((500000 : ℤ).toNat >>> 16) &&& 255 = 7 from by decide,
    show ((500000 : ℤ).toNat >>> 8) &&& 255 = 161 from by decide,
    show ((500000 : ℤ).toNat) &&& 255 = 32 from by decide]

theorem name_Melody :
    nameMetaEvent "Melody" = ([0, 255, 3, 6, 77, 101, 108, 111, 100, 121] : List ℚ) := by
  unfold nameMetaEvent
  rw [writeVLQ_zero, show "Melody".toList = ['M', 'e', 'l', 'o', 'd', 'y'] from rfl]
  norm_num [show "Melody".length = 6 from rfl, show 'M'.toNat = 77 from rfl,
    show 'e'.toNat = 101 from rfl, show 'l'.toNat = 108 from rfl, show 'o'.toNat = 111 from rfl,
    show 'd'.toNat = 100 from rfl, show 'y'.toNat = 121 from rfl]

theorem endOfTrack_eval : endOfTrackEvent = ([0, 255, 47, 0] : List ℚ) := by
  unfold endOfTrackEvent
  rw [writeVLQ_zero]
  norm_num

theorem melody_chunk :
    createTrackChunk melodyTrack 120 none =
      [77, 84, 114, 107, 0, 0, 0, 39,
       0, 255, 81, 3, 7, 161, 32,
       0, 255, 3, 6, 77, 101, 108, 111, 100, 121,
       0, 144, 60, 80, 131, 96, 128, 60, 0,
       0, 144, 64, 80, 131, 96, 128, 64, 0,
       0, 255, 47, 0] := by
  have hname : melodyTrack.trackName = some "Melody" := rfl
  simp only [createTrackChunk, hname, melody_events, melody_sorted, melody_emit]
  rw [if_pos (show (some "Melody" : Option String) ≠ some "Tempo Track" by decide),
    if_pos (show ("Melody" : String) ≠ "" by decide), tempo_120, name_Melody, endOfTrack_eval]
  norm_num [jsToUint8, jsTrunc,
    show ((39 : ℕ) >>> 24) &&& 255 = 0 from by decide,
    show ((39 : ℕ) >>> 16) &&& 255 = 0 from by decide,
    show ((39 : ℕ) >>> 8) &&& 255 = 0 from by decide,
    show (39 : ℕ) &&& 255 = 39 from by decide]
  decide

/-- The note of the implicit velocity-floor scenario: it is a fixed point of
the validator (velocity 1, duration 0.1). -/
def c10note : MidiNote := { note := 60, velocity := 1, time := 0, duration := 0.1 }

/-- Unnamed single-note track carrying `c10note`. -/
def c10track : MidiTrack := { trackName := none, notes := [c10note] }

theorem c10_events :
    midiEventsOf [c10note] 120 =
      [{ tick := 0, type := .on, note := 60, velocity := 0 },
       { tick := 96, type := .off, note := 60, velocity := 0 }] := by
  have hv : jsRound (((0.1 : ℚ) - 0.5) * 15) = -6 := jsRound_eq _ (-6) (by norm_num) (by norm_num)
  simp only [midiEventsOf, c10note, List.map_cons, List.map_nil, List.flatten_cons,
    List.flatten_nil, List.cons_append, List.nil_append, List.append_nil, hv]
  rw [jsRound_eq ((0 : ℚ) / (60 / (120 * (TPQN : ℚ)))) 0 (by norm_num [TPQN]) (by norm_num [TPQN])]
  norm_num [TPQN, MidiEvent.mk.injEq, max_def, min_def]
  exact jsRound_eq _ 96 (by norm_num) (by norm_num)

theorem c10_emit :
    emitEvents
      [{ tick := 0, type := .on, note := 60, velocity := 0 },
       { tick := 96, type := .off, note := 60, velocity := 0 }] 0 =
      ([0, 144, 60, 0, 96, 128, 60, 0] : List ℚ) := by
  simp only [emitEvents]
  norm_num
  rw [show (96 : ℤ).toNat = 96 from by decide, writeVLQ_96, writeVLQ_zero]
  simp

theorem c10_chunk :
    createTrackChunk c10track 120 none =
      [77, 84, 114, 107, 0, 0, 0, 19,
       0, 255, 81, 3, 7, 161, 32,
       0, 144, 60, 0, 96, 128, 60, 0,
       0, 255, 47, 0] := by
  have hname : c10track.trackName = none := rfl
  have hnotes : c10track.notes = [c10note] := rfl
  simp only [createTrackChunk, hname, hnotes, c10_events,
    show jsSort leTick
      [{ tick := 0, type := .on, note := 60, velocity := 0 },
       { tick := 96, type := .off, note := 60, velocity := 0 }] =
      [({ tick := 0, type := .on, note := 60, velocity := 0 } : MidiEvent),
       { tick := 96, type := .off, note := 60, velocity := 0 }] from rfl, c10_emit]
  rw [if_pos (show (none : Option String) ≠ some "Tempo Track" by decide),
    tempo_120, endOfTrack_eval]
  norm_num [jsToUint8, jsTrunc,
    show ((19 : ℕ) >>> 24) &&& 255 = 0 from by decide,
    show ((19 : ℕ) >>> 16) &&& 255 = 0 from by decide,
    show ((19 : ℕ) >>> 8) &&& 255 = 0 from by decide,
    show (19 : ℕ) &&& 255 = 19 from by decide]
  decide

/-- Learned preferences large enough that the JSON side-channel payload
exceeds 127 bytes; all weights are the attainable ceiling value 1, whose
JavaScript JSON rendering is exactly "1". -/
def P7 : LearnedPreferences :=
  { INITIAL_PREFERENCES with
    style := [("jazz", 1), ("classical", 1), ("electronic", 1), ("ambient", 1)]
    mood := [("energetic", 1), ("melancholic", 1)]
    pattern := [("four-on-the-floor", 1)]
    humanization := [("swing", 1)] }

set_option maxRecDepth 20000 in
theorem jsonPrefs_P7 :
    jsonPrefs P7 =
      "\x7b\"style\":\x7b\"jazz\":1,\"classical\":1,\"electronic\":1,\"ambient\":1\x7d,\"mood\":\x7b\"energetic\":1,\"melancholic\":1\x7d,\"key\":\x7b\x7d,\"pattern\":\x7b\"four-on-the-floor\":1\x7d,\"humanization\":\x7b\"swing\":1\x7d\x7d" := by
  decide

set_option maxRecDepth 20000 in
theorem jsonPrefs_P7_length : (jsonPrefs P7).length = 170 := by
  rw [jsonPrefs_P7]
  decide

theorem writeVLQ_170 : writeVLQ 170 = [129, 42] := by
  unfold writeVLQ
  rw [show (170 : ℕ) / 128 = 1 from by norm_num, show (170 : ℕ) % 128 = 42 from by norm_num,
    vlqGo_unfold]
  norm_num
  rw [show (1 : ℕ) ||| 128 = 129 from by decide, vlqGo_zero]

theorem map_jsToUint8_chars (cs : List Char) (h : ∀ c ∈ cs, c.toNat < 256) :
    (cs.map (fun c => (c.toNat : ℚ))).map jsToUint8 = cs.map Char.toNat := by
  induction cs with
  | nil => rfl
  | cons c cs ih =>
    simp only [List.map_cons, List.cons.injEq]
    constructor
    · exact jsToUint8_natCast _ (h c (List.mem_cons_self _ _))
    · exact ih fun d hd => h d (List.mem_cons_of_mem _ hd)

theorem prefsMetaEvent_P7 :
    prefsMetaEvent P7 =
      ([0, 255, 1, 170] : List ℚ) ++ (jsonPrefs P7).toList.map (fun c => (c.toNat : ℚ)) := by
  simp only [prefsMetaEvent]
  rw [writeVLQ_zero, jsonPrefs_P7_length]
  norm_num

set_option maxRecDepth 20000 in
theorem c7_chunk :
    createTrackChunk { trackName := none, notes := [] } 120 (some P7) =
      [77, 84, 114, 107, 0, 0, 0, 185,
       0, 255, 81, 3, 7, 161, 32,
       0, 255, 1, 170] ++ (jsonPrefs P7).toList.map Char.toNat ++
      [0, 255, 47, 0] := by
  have hascii : ∀ c ∈ (jsonPrefs P7).toList, c.toNat < 256 := by
    rw [jsonPrefs_P7]; decide
  have htl : (jsonPrefs P7).toList.length = 170 := by
    rw [jsonPrefs_P7]; rfl
  simp only [createTrackChunk, midiEventsOf, List.map_nil, List.flatten_nil]
  rw [show jsSort leTick ([] : List MidiEvent) = [] from rfl]
  simp only [emitEvents]
  rw [if_pos (show (none : Option String) ≠ some "Tempo Track" by decide),
    tempo_120, endOfTrack_eval, prefsMetaEvent_P7]
  simp only [List.append_assoc, List.append_nil, List.nil_append, List.length_append,
    List.length_map, List.length_cons, List.length_nil, htl, List.map_append,
    map_jsToUint8_chars _ hascii]
  norm_num [jsToUint8, jsTrunc,
    show ((185 : ℕ) >>> 24) &&& 255 = 0 from by decide,
    show ((185 : ℕ) >>> 16) &&& 255 = 0 from by decide,
    show ((185 : ℕ) >>> 8) &&& 255 = 0 from by decide,
    show (185 : ℕ) &&& 255 = 185 from by decide]
  decide

set_option maxRecDepth 40000 in
theorem allKeywordPairs_nodup : allKeywordPairs.Nodup := by decide

/-- Enabled engine state with no learned weights and zero samples. -/
def enabledEmptyState : LearningSystemState :=
  { isEnabled := true, preferences := INITIAL_PREFERENCES, sampleCount := 0, confidence := 0 }

theorem validateNote_mem_ranges (n : MidiNote) :
    (21 : ℚ) ≤ (validateNote n).note ∧ (validateNote n).note ≤ 108 ∧
      (1 : ℚ) ≤ (validateNote n).velocity ∧ (validateNote n).velocity ≤ 127 ∧
      (0 : ℚ) ≤ (validateNote n).time ∧ (0.1 : ℚ) ≤ (validateNote n).duration := by
  unfold validateNote
  exact ⟨le_max_left _ _, max_le (by norm_num) (min_le_left _ _),
    le_max_left _ _, max_le (by norm_num) (min_le_left _ _),
    le_max_left _ _, le_max_left _ _⟩

theorem leTime_total (a b : MidiNote) : leTime a b = true ∨ leTime b a = true := by
  unfold leTime
  rcases le_total a.time b.time with h | h
  · exact Or.inl (decide_eq_true h)
  · exact Or.inr (decide_eq_true h)

theorem leTime_trans (a b c : MidiNote) (h1 : leTime a b = true) (h2 : leTime b c = true) :
    leTime a c = true := by
  unfold leTime at h1 h2 ⊢
  exact decide_eq_true (le_trans (of_decide_eq_true h1) (of_decide_eq_true h2))

/-- A legacy persisted state: guard-passing, with stored weights in style,
but with the humanization, pattern and voice_leading keys absent. -/
def storedLegacyState : StoredState :=
  { isEnabled := true
    preferences :=
      { style := some [("jazz", 1)]
        mood := some []
        key := some []
        instrument := some []
        humanization := none
        pattern := none
        harmonic_complexity := some []
        melodic_development := some []
        dynamic_expression := some []
        voice_leading := none }
    sampleCount := 3 }

/-- C1: evaluation of the load/migration operation on a stored state missing
the humanization, pattern and voice_leading keys.  The code back-fills only
humanization and pattern; the voice_leading key stays absent after load,
contradicting the claim that all ten dimension keys are back-filled.  The
stored style weights and the sample count pass through unchanged. -/
theorem C1_load_migration_backfills_only_two_dimensions :
    (getInitialState (some storedLegacyState)).preferences.humanization = some [] ∧
    (getInitialState (some storedLegacyState)).preferences.pattern = some [] ∧
    (getInitialState (some storedLegacyState)).preferences.voice_leading = none ∧
    (getInitialState (some storedLegacyState)).preferences.style = some [("jazz", 1)] ∧
    (getInitialState (some storedLegacyState)).sampleCount = 3 :=
  ⟨rfl, rfl, rfl, rfl, rfl⟩

/-- C2 counterexample: with learning enabled, the text "jazz happy" matches
two keywords and the sample count rises by 2 (one per matched keyword, not
one per call), while the text "xyzzy" matches no keyword and the sample
count does not rise at all — refuting both the "+1 per call" and the
"increment also on zero-match calls" parts of the claim. -/
theorem C2_counterexample_sample_count_per_matched_keyword :
    (handleFeedback enabledEmptyState "jazz happy" .like).sampleCount = 2 ∧
    (handleFeedback enabledEmptyState "xyzzy" .like).sampleCount = 0 := by
  constructor
  · rw [handleFeedback_eq_applyPairs _ _ _ rfl, applyPairs_sampleCount,
      show matchedPairs "jazz happy" = [(.style, "jazz"), (.mood, "happy")] from by decide]
    rfl
  · rw [handleFeedback_eq_applyPairs _ _ _ rfl, applyPairs_sampleCount,
      show matchedPairs "xyzzy" = [] from by decide]
    rfl

/-- Behaviour of one enabled `recordFeedback` call: it is exactly one
`updatePreferences` application per matched (dimension, keyword) pair — a
duplicate-free list — and the sample count grows by the number of matched
pairs. -/
def RecordFeedbackSpec (s : LearningSystemState) (text : String) (a : FeedbackAction) : Prop :=
  handleFeedback s text a = applyPairs (matchedPairs text) a s ∧
  (handleFeedback s text a).sampleCount = s.sampleCount + (matchedPairs text).length ∧
  (matchedPairs text).Nodup

/-- C2 (amended): for every call `recordFeedback(text, action)` with
learning enabled, each dictionary keyword matching the text receives exactly
one weight update, and the global sampleCount increases by 1 per matched
(dimension, keyword) pair — not by 1 per call; a call whose text matches
zero keywords leaves the sample count unchanged. -/
theorem C2_feedback_one_update_per_matched_keyword (s : LearningSystemState)
    (text : String) (a : FeedbackAction) (h : s.isEnabled = true) :
    RecordFeedbackSpec s text a := by
  refine ⟨handleFeedback_eq_applyPairs s text a h, ?_,
    List.Nodup.filter _ allKeywordPairs_nodup⟩
  rw [handleFeedback_eq_applyPairs s text a h, applyPairs_sampleCount]

theorem C2_feedback_one_update_per_matched_keyword_witness :
    enabledEmptyState.isEnabled = true ∧ RecordFeedbackSpec enabledEmptyState "jazz" .like :=
  ⟨rfl, C2_feedback_one_update_per_matched_keyword enabledEmptyState "jazz" .like rfl⟩

/-- C3 counterexample: contrary to the claim, there is no starting weight
near the 1.0 ceiling — any weight w with 0.8 ≤ w ≤ 1, i.e. every weight
from which the summed +0.2 delta reaches the ceiling — at which
`recordBulkFeedback(["jazz","jazz"], LIKE)` and two sequential
`recordFeedback("jazz", LIKE)` calls disagree on the final "jazz" weight:
both saturate at exactly 1.0 there.  `Math.min(1.0, _)` saturates to the
exact double 1.0 in the source as well, so this refutation is independent
of floating-point rounding (away from the ceiling the two paths can differ
by one ulp in doubles, but that is not the divergence the claim asserts). -/
theorem C3_counterexample_bulk_equals_sequential_near_ceiling :
    ¬ ∃ w : ℚ, 0.8 ≤ w ∧ w ≤ 1 ∧ jazzWeightAfterBulk w ≠ jazzWeightAfterSeq w := by
  rintro ⟨w, h1, _h2, hne⟩
  obtain ⟨hb, hs⟩ := bulk_seq_jazz_saturate w h1
  exact hne (hb.trans hs.symm)

/-- Bulk-feedback behaviour on the shared-keyword scenario: raw deltas are
summed per (dimension, keyword) pair before any clamping, the sample
counter grows by the batch length, and near the 1.0 ceiling both the bulk
path and the sequential path clamp the weight to exactly 1. -/
def BulkFeedbackJazzSpec (w : ℚ) : Prop :=
  computeAdjustments ["jazz", "jazz"] .like = [(.style, [("jazz", 0.2)])] ∧
  (handleBulkFeedback (jazzState w) ["jazz", "jazz"] .like).sampleCount = 2 ∧
  (∀ (s : LearningSystemState) (ds : List String) (a : FeedbackAction),
    s.isEnabled = true → ds ≠ [] →
      (handleBulkFeedback s ds a).sampleCount = s.sampleCount + ds.length) ∧
  jazzWeightAfterBulk w = 1 ∧
  jazzWeightAfterSeq w = 1 ∧
  jazzWeightAfterBulk w = jazzWeightAfterSeq w

/-- C3 (amended): `recordBulkFeedback(texts, action)` sums the raw deltas
for the same (dimension, keyword) pair across all texts (two LIKE matches
on "jazz" accumulate to the pre-clamp delta +0.2), applies a single clamp
to [0.1, 1.0] per keyword at the end, and increments sampleCount by the
number of texts; however, for every starting weight near the 1.0 ceiling
(0.8 ≤ w ≤ 1), `recordBulkFeedback(["jazz","jazz"], LIKE)` and two
sequential `recordFeedback("jazz", LIKE)` calls both clamp the "jazz"
weight to exactly 1.0, so the divergence the original claim places near the
ceiling does not exist. -/
theorem C3_bulk_sums_deltas_single_clamp (w : ℚ) (h1 : (0.8 : ℚ) ≤ w) (_h2 : w ≤ 1) :
    BulkFeedbackJazzSpec w := by
  obtain ⟨hb, hs⟩ := bulk_seq_jazz_saturate w h1
  refine ⟨computeAdjustments_jazz, rfl, ?_, hb, hs, hb.trans hs.symm⟩
  intro s ds a hsen hds
  unfold handleBulkFeedback
  rw [if_pos (show (s.isEnabled && !ds.isEmpty) = true from by
    rw [hsen]
    cases ds with
    | nil => exact absurd rfl hds
    | cons d ds => rfl)]

theorem C3_bulk_sums_deltas_single_clamp_witness :
    ((0.8 : ℚ) ≤ 0.95 ∧ (0.95 : ℚ) ≤ 1) ∧ BulkFeedbackJazzSpec 0.95 :=
  ⟨⟨by norm_num, by norm_num⟩, C3_bulk_sums_deltas_single_clamp 0.95 (by norm_num) (by norm_num)⟩

/-- C4: starting from a state whose present keyword weights all lie in
[0.1, 1.0], every sequence of feedback operations (single feedback, bulk
feedback, snippet analysis, with any actions and texts) keeps every present
keyword weight of every dimension within [0.1, 1.0]. -/
theorem C4_weights_remain_clamped (s : LearningSystemState) (h : PrefsOK s.preferences)
    (ops : List FeedbackOp) : PrefsOK (applyOps ops s).preferences := by
  unfold applyOps
  refine foldl_preserve (P := fun st : LearningSystemState => PrefsOK st.preferences) _ ?_ _ _ h
  intro st op hst
  cases op with
  | feedback text action => exact PrefsOK_handleFeedback hst text action
  | bulk texts action => exact PrefsOK_handleBulkFeedback hst texts action
  | snippet ht pt => exact PrefsOK_learnFromSnippetAnalysis hst ht pt

/-- Mixed sequence of feedback operations used as a concrete witness. -/
def sampleOps : List FeedbackOp :=
  [.feedback "smooth jazz piano" .like,
   .bulk ["calm peaceful", "dark energetic"] .dislike,
   .snippet "tight swing groove" "syncopated chord progression",
   .feedback "no dictionary words at all qq" .regenerate]

theorem C4_weights_remain_clamped_witness :
    PrefsOK enabledEmptyState.preferences ∧
      PrefsOK (applyOps sampleOps enabledEmptyState).preferences :=
  ⟨by decide, C4_weights_remain_clamped enabledEmptyState (by decide) sampleOps⟩

/-- C5: for every tick delta on which the JavaScript bit operations agree
with plain arithmetic (all of [0, 2^31), covering every realistic delta and
the specification's test set {0, 127, 128, 16383, 16384, 2097151}), the
emitted VLQ bytes decode back to the delta, carry the continuation bit on
every byte except the last, keep the final byte below 0x80, start with a
non-superfluous leading byte, and encode 0 as the single byte 0x00. -/
theorem C5_vlq_writer_correct (v : ℕ) (_h : v < 2 ^ 31) : VlqSpecAt v :=
  vlqSpecAt_holds v

theorem C5_vlq_writer_correct_witness : 2097151 < 2 ^ 31 ∧ VlqSpecAt 2097151 :=
  ⟨by norm_num, C5_vlq_writer_correct 2097151 (by norm_num)⟩

/-- C6: byte-exact encoding of the "Melody" scenario: one track named
"Melody" with notes {60,80,0,0.5} and {64,80,0.5,0.5} at 120 bpm yields the
14-byte MThd header (format 1, one track, division 480 = 0x01E0), then one
MTrk chunk of length 39 containing, in order: tempo meta event for 500000
microseconds per quarter at delta 0, track-name meta event "Melody" at
delta 0, the note on/off events with running-tick deltas (0, 480, 0, 480),
and the terminator FF 2F 00. -/
theorem C6_melody_scenario_bytes :
    createMidiBlob [melodyTrack] 120 none =
      [77, 84, 104, 100, 0, 0, 0, 6, 0, 1, 0, 1, 1, 224,
       77, 84, 114, 107, 0, 0, 0, 39,
       0, 255, 81, 3, 7, 161, 32,
       0, 255, 3, 6, 77, 101, 108, 111, 100, 121,
       0, 144, 60, 80, 131, 96, 128, 60, 0,
       0, 144, 64, 80, 131, 96, 128, 64, 0,
       0, 255, 47, 0] := by
  simp only [createMidiBlob, List.map_cons, List.map_nil, List.flatten_cons, List.flatten_nil,
    List.append_nil, melody_chunk, List.length_cons, List.length_nil]
  norm_num [TPQN, show ((1 : ℕ) >>> 8) &&& 255 = 0 from by decide,
    show ((480 : ℕ) >>> 8) &&& 255 = 1 from by decide,
    show (480 : ℕ) &&& 255 = 224 from by decide]

/-- C7: evaluation of the side-channel meta event on a realistic payload.
The JSON of the five fields style, mood, key, pattern, humanization is 170
characters long; the emitted event is FF 01 followed by the single raw byte
170 (not a VLQ) and the raw ASCII payload, and the track chunk embeds it
verbatim; but the correct VLQ encoding of 170 is the two bytes [0x81, 0x2A],
so the emitted length field is not a spec-valid VLQ length and a conforming
reader mis-parses the file — the output is not a valid SMF for payloads of
128 bytes or more, refuting the "every payload size" claim. -/
theorem C7_side_channel_meta_event_invalid_length :
    128 ≤ (jsonPrefs P7).length ∧ (jsonPrefs P7).length < 256 ∧
    jsonPrefs P7 =
      "\x7b\"style\":\x7b\"jazz\":1,\"classical\":1,\"electronic\":1,\"ambient\":1\x7d,\"mood\":\x7b\"energetic\":1,\"melancholic\":1\x7d,\"key\":\x7b\x7d,\"pattern\":\x7b\"four-on-the-floor\":1\x7d,\"humanization\":\x7b\"swing\":1\x7d\x7d" ∧
    prefsMetaEvent P7 =
      ([0, 255, 1, 170] : List ℚ) ++ (jsonPrefs P7).toList.map (fun c => (c.toNat : ℚ)) ∧
    createTrackChunk { trackName := none, notes := [] } 120 (some P7) =
      [77, 84, 114, 107, 0, 0, 0, 185,
       0, 255, 81, 3, 7, 161, 32,
       0, 255, 1, 170] ++ (jsonPrefs P7).toList.map Char.toNat ++
      [0, 255, 47, 0] ∧
    writeVLQ (jsonPrefs P7).length ≠ [(jsonPrefs P7).length] := by
  refine ⟨?_, ?_, jsonPrefs_P7, prefsMetaEvent_P7, c7_chunk, ?_⟩
  · rw [jsonPrefs_P7_length]; norm_num
  · rw [jsonPrefs_P7_length]; norm_num
  · rw [jsonPrefs_P7_length, writeVLQ_170]; decide

/-- C8: the validation pass is total (never raises), clamps every note to
note ∈ [21,108], velocity ∈ [1,127], time ≥ 0, duration ≥ 0.1, re-sorts
each track's notes by time ascending, and maps the out-of-range note
{200, 0, -1, 0} to exactly {108, 1, 0, 0.1}. -/
theorem C8_validator_clamps_and_sorts :
    (∀ (r : MidiGenerationResult) (t : MidiTrack), t ∈ (validateAndEnhanceMidi r).tracks →
      (∀ n ∈ t.notes,
        (21 : ℚ) ≤ n.note ∧ n.note ≤ 108 ∧ (1 : ℚ) ≤ n.velocity ∧ n.velocity ≤ 127 ∧
          (0 : ℚ) ≤ n.time ∧ (0.1 : ℚ) ≤ n.duration) ∧
      t.notes.Pairwise (fun a b => a.time ≤ b.time)) ∧
    validateNote { note := 200, velocity := 0, time := -1, duration := 0 } =
      { note := 108, velocity := 1, time := 0, duration := 0.1 } := by
  constructor
  · intro r t ht
    simp only [validateAndEnhanceMidi, List.mem_map] at ht
    obtain ⟨t0, _ht0, rfl⟩ := ht
    constructor
    · intro n hn
      have hmem : ∀ z ∈ t0.notes.map validateNote,
          (21 : ℚ) ≤ z.note ∧ z.note ≤ 108 ∧ (1 : ℚ) ≤ z.velocity ∧ z.velocity ≤ 127 ∧
            (0 : ℚ) ≤ z.time ∧ (0.1 : ℚ) ≤ z.duration := by
        intro z hz
        obtain ⟨m, _, rfl⟩ := List.mem_map.mp hz
        exact validateNote_mem_ranges m
      exact mem_jsSort_of leTime _ _ []
        (fun z hz => absurd hz (List.not_mem_nil z)) hmem n hn
    · have hp := pairwise_jsSort leTime leTime_total leTime_trans (t0.notes.map validateNote)
      exact hp.imp fun hab => of_decide_eq_true hab
  · simp only [validateNote]
    norm_num [max_def, min_def]

/-- C9: keyword matching is whole-phrase and word-boundary based on the
case-folded text: "classic" does not trigger the keyword "classical" (and a
feedback call with that text leaves the state untouched), the case-folded
text does match, "four-on-the-floor" matches only as a complete phrase and
never inside a longer token, and multi-word keywords match across flexible
(one-or-more) whitespace. -/
theorem C9_keyword_word_boundary_matching :
    matchesText "classical" "classic" = false ∧
    matchesText "classical" "a Classical piece" = true ∧
    matchesText "four-on-the-floor" "a four-on-the-floor groove" = true ∧
    matchesText "four-on-the-floor" "four-on-the-floors" = false ∧
    matchesText "four-on-the-floor" "myfour-on-the-floor" = false ∧
    matchesText "c major" "in c     major today" = true ∧
    matchesText "c major" "in c \t major today" = true ∧
    matchesText "c major" "in cmajor today" = false ∧
    handleFeedback enabledEmptyState "classic" .like = enabledEmptyState := by
  refine ⟨by decide, by decide, by decide, by decide, by decide, by decide, by decide,
    by decide, ?_⟩
  rw [handleFeedback_eq_applyPairs _ _ _ rfl,
    show matchedPairs "classic" = [] from by decide]
  rfl

/-- C10: the note {60, 1, 0, 0.1} passes the validation pass unchanged (and
the validator never outputs a velocity below 1), yet the encoder's
duration-based adjustment velocity + round((duration - 0.5) * 15) clamps at
floor 0, so the emitted note-on event carries velocity 0 — visible both in
the event list and in the emitted chunk bytes (90 3C 00). -/
theorem C10_note_on_velocity_floor_zero :
    validateNote c10note = c10note ∧
    (∀ n : MidiNote, (1 : ℚ) ≤ (validateNote n).velocity) ∧
    midiEventsOf [c10note] 120 =
      [{ tick := 0, type := .on, note := 60, velocity := 0 },
       { tick := 96, type := .off, note := 60, velocity := 0 }] ∧
    createTrackChunk c10track 120 none =
      [77, 84, 114, 107, 0, 0, 0, 19,
       0, 255, 81, 3, 7, 161, 32,
       0, 144, 60, 0, 96, 128, 60, 0,
       0, 255, 47, 0] := by
  refine ⟨?_, ?_, c10_events, c10_chunk⟩
  · simp only [validateNote, c10note]
    norm_num [max_def, min_def]
  · intro n
    exact (validateNote_mem_ranges n).2.2.1
